import Mathlib

/-!
Shallow embedding of `torchtune/rlhf/loss/dpo.py`: the five preference-loss
modules (DPOLoss, DPOPLoss, RPOLoss, RSOLoss, SimPOLoss).  A 1-D tensor of
shape `(batch_size,)` is modelled as a `List ℝ`; elementwise tensor
operations become `List.zipWith` / `List.map`.  `F.logsigmoid` is modelled by
its mathematical definition `logsigmoid x = -log (1 + exp (-x))`
(`log (sigmoid x)` in its numerically stable form).  `.detach()` is the
identity on values; gradient semantics are modelled separately below by a
forward-mode dual-number embedding in which `detach` zeroes the tangent.
-/

noncomputable section

open Real

/-- Model of `F.logsigmoid`, in the stable form `-log (1 + exp (-x)) = log (sigmoid x)`. -/
def logsigmoid (x : ℝ) : ℝ := -Real.log (1 + Real.exp (-x))

/-- Elementwise subtraction of two same-length 1-D tensors. -/
def tsub (a b : List ℝ) : List ℝ := List.zipWith (· - ·) a b

/-- Elementwise addition of two same-length 1-D tensors. -/
def tadd (a b : List ℝ) : List ℝ := List.zipWith (· + ·) a b

/-- Elementwise `torch.maximum` of two same-length 1-D tensors. -/
def tmaximum (a b : List ℝ) : List ℝ := List.zipWith max a b

/-- Model of `torch.zeros(shape)` for a 1-D shape. -/
def tzeros (n : ℕ) : List ℝ := List.replicate n 0

/-- Multiplication of a 1-D tensor by a python scalar. -/
def tsmul (c : ℝ) (a : List ℝ) : List ℝ := a.map (fun v => c * v)

/-- Subtraction of a python scalar from a 1-D tensor. -/
def tsubScalar (a : List ℝ) (c : ℝ) : List ℝ := a.map (fun v => v - c)

/-- Model of `torch.relu` on a 1-D tensor. -/
def trelu (a : List ℝ) : List ℝ := a.map (fun v => max v 0)

/-- Hyperparameters of `DPOLoss` (`__init__` stores them unchanged). -/
structure DPOLoss where
  beta : ℝ
  label_smoothing : ℝ
  lambda_dpop : ℝ

/-- Body of `DPOLoss.forward`, line by line.  The tensor expression
`losses = -F.logsigmoid(beta*logits)*(1-label_smoothing)
          -F.logsigmoid(-beta*logits)*label_smoothing` is elementwise,
so it is a `map` of that scalar expression over `logits`;
`.detach()` is the identity at the value level. -/
def DPOLoss.forward (self : DPOLoss)
    (policy_chosen_logps policy_rejected_logps
     reference_chosen_logps reference_rejected_logps : List ℝ) :
    List ℝ × List ℝ × List ℝ :=
  let pi_logratios := tsub policy_chosen_logps policy_rejected_logps
  let ref_logratios := tsub reference_chosen_logps reference_rejected_logps
  let logits := tsub pi_logratios ref_logratios
  let penalty := tmaximum (tzeros policy_chosen_logps.length)
      (tsub reference_chosen_logps policy_chosen_logps)
  let logits := tadd logits (tsmul (-self.lambda_dpop) penalty)
  let losses := logits.map (fun z =>
      -logsigmoid (self.beta * z) * (1 - self.label_smoothing)
      - logsigmoid (-(self.beta * z)) * self.label_smoothing)
  let chosen_rewards :=
      tsmul self.beta (tsub policy_chosen_logps reference_chosen_logps)
  let rejected_rewards :=
      tsmul self.beta (tsub policy_rejected_logps reference_rejected_logps)
  (losses, chosen_rewards, rejected_rewards)

/-- Hyperparameters of `DPOPLoss`. -/
structure DPOPLoss where
  beta : ℝ
  label_smoothing : ℝ
  lambda_dpop : ℝ

/-- Body of `DPOPLoss.forward`, line by line.  The tensor expression
`losses = -(F.logsigmoid(beta*logits) - lambda_dpop*torch.clamp(positive_reg, min=0))`
combines `logits` and `positive_reg` elementwise, so it is a `zipWith`
of that scalar expression (`torch.clamp(r, min=0)` is `max r 0`). -/
def DPOPLoss.forward (self : DPOPLoss)
    (policy_chosen_logps policy_rejected_logps
     reference_chosen_logps reference_rejected_logps : List ℝ) :
    List ℝ × List ℝ × List ℝ :=
  let pi_logratios := tsub policy_chosen_logps policy_rejected_logps
  let ref_logratios := tsub reference_chosen_logps reference_rejected_logps
  let logits := tsub pi_logratios ref_logratios
  let positive_reg := tsub reference_chosen_logps policy_chosen_logps
  let losses := List.zipWith (fun z r =>
      -(logsigmoid (self.beta * z) - self.lambda_dpop * max r 0))
      logits positive_reg
  let chosen_rewards :=
      tsmul self.beta (tsub policy_chosen_logps reference_chosen_logps)
  let rejected_rewards :=
      tsmul self.beta (tsub policy_rejected_logps reference_rejected_logps)
  (losses, chosen_rewards, rejected_rewards)

/-- Hyperparameters of `RPOLoss`. -/
structure RPOLoss where
  beta : ℝ
  label_smoothing : ℝ
  rpo_alpha : ℝ

/-- Body of `RPOLoss.forward`, line by line. -/
def RPOLoss.forward (self : RPOLoss)
    (policy_chosen_logps policy_rejected_logps
     reference_chosen_logps reference_rejected_logps nll_loss : List ℝ) :
    List ℝ × List ℝ × List ℝ :=
  let pi_logratios := tsub policy_chosen_logps policy_rejected_logps
  let ref_logratios := tsub reference_chosen_logps reference_rejected_logps
  let logits := tsub pi_logratios ref_logratios
  let losses := logits.map (fun z =>
      -logsigmoid (self.beta * z) * (1 - self.label_smoothing)
      - logsigmoid (-(self.beta * z)) * self.label_smoothing)
  let losses := tadd losses (tsmul self.rpo_alpha nll_loss)
  let chosen_rewards :=
      tsmul self.beta (tsub policy_chosen_logps reference_chosen_logps)
  let rejected_rewards :=
      tsmul self.beta (tsub policy_rejected_logps reference_rejected_logps)
  (losses, chosen_rewards, rejected_rewards)

/-- Hyperparameter of `RSOLoss`. -/
structure RSOLoss where
  gamma : ℝ

/-- Body of `RSOLoss.forward`, line by line (`torch.relu(1 - gamma*logits)`
is the elementwise map of `1 - gamma*z` followed by `relu`). -/
def RSOLoss.forward (self : RSOLoss)
    (policy_chosen_logps policy_rejected_logps
     reference_chosen_logps reference_rejected_logps : List ℝ) :
    List ℝ × List ℝ × List ℝ :=
  let pi_logratios := tsub policy_chosen_logps policy_rejected_logps
  let ref_logratios := tsub reference_chosen_logps reference_rejected_logps
  let logits := tsub pi_logratios ref_logratios
  let losses := trelu (logits.map (fun z => 1 - self.gamma * z))
  let chosen_rewards :=
      tsmul self.gamma (tsub policy_chosen_logps reference_chosen_logps)
  let rejected_rewards :=
      tsmul self.gamma (tsub policy_rejected_logps reference_rejected_logps)
  (losses, chosen_rewards, rejected_rewards)

/-- Hyperparameters of `SimPOLoss`. -/
structure SimPOLoss where
  beta : ℝ
  gamma : ℝ
  label_smoothing : ℝ

/-- Body of `SimPOLoss.forward`, line by line. -/
def SimPOLoss.forward (self : SimPOLoss)
    (policy_chosen_logps policy_rejected_logps : List ℝ) :
    List ℝ × List ℝ × List ℝ :=
  let pi_logratios := tsub policy_chosen_logps policy_rejected_logps
  let gamma_logratios := self.gamma / self.beta
  let logits := tsubScalar pi_logratios gamma_logratios
  let losses := logits.map (fun z =>
      -logsigmoid (self.beta * z) * (1 - self.label_smoothing)
      - logsigmoid (-(self.beta * z)) * self.label_smoothing)
  let chosen_rewards := tsmul self.beta policy_chosen_logps
  let rejected_rewards := tsmul self.beta policy_rejected_logps
  (losses, chosen_rewards, rejected_rewards)

/-!
Broadcast semantics.  The python methods contain no shape check at all:
binary tensor operations follow torch's 1-D broadcasting rule — equal
sizes combine elementwise, a size-1 operand is stretched to the other
size, and any other size combination raises a (generic broadcasting)
runtime error.  `broadcastBin` models one binary elementwise operation
under that rule, and `DPOLoss.forwardTensor` is the same method body as
`DPOLoss.forward` with this full tensor semantics, so that the behaviour
on mismatched input lengths can be examined.
-/

/-- Binary elementwise operation on 1-D tensors with torch broadcasting:
equal lengths combine pointwise, a length-1 operand broadcasts, anything
else is a runtime error (`none`). -/
def broadcastBin (f : ℝ → ℝ → ℝ) (a b : List ℝ) : Option (List ℝ) :=
  if a.length = b.length then some (List.zipWith f a b)
  else if a.length = 1 then some (b.map (fun y => f a.headI y))
  else if b.length = 1 then some (a.map (fun x => f x b.headI))
  else none

/-- Body of `DPOLoss.forward` under full torch tensor semantics, where
every binary tensor operation broadcasts (`broadcastBin`); no shape
validation is performed, exactly as in the source. -/
def DPOLoss.forwardTensor (self : DPOLoss)
    (policy_chosen_logps policy_rejected_logps
     reference_chosen_logps reference_rejected_logps : List ℝ) :
    Option (List ℝ × List ℝ × List ℝ) := do
  let pi_logratios ← broadcastBin (· - ·) policy_chosen_logps policy_rejected_logps
  let ref_logratios ← broadcastBin (· - ·) reference_chosen_logps reference_rejected_logps
  let logits ← broadcastBin (· - ·) pi_logratios ref_logratios
  let diff ← broadcastBin (· - ·) reference_chosen_logps policy_chosen_logps
  let penalty ← broadcastBin max (tzeros policy_chosen_logps.length) diff
  let logits ← broadcastBin (· + ·) logits (tsmul (-self.lambda_dpop) penalty)
  let losses := logits.map (fun z =>
      -logsigmoid (self.beta * z) * (1 - self.label_smoothing)
      - logsigmoid (-(self.beta * z)) * self.label_smoothing)
  let cdiff ← broadcastBin (· - ·) policy_chosen_logps reference_chosen_logps
  let chosen_rewards := tsmul self.beta cdiff
  let rdiff ← broadcastBin (· - ·) policy_rejected_logps reference_rejected_logps
  let rejected_rewards := tsmul self.beta rdiff
  some (losses, chosen_rewards, rejected_rewards)

/-!
Gradient semantics.  To express which outputs are detached from the
autodiff graph, the same method bodies are embedded over forward-mode
dual numbers: every scalar carries a value and a tangent (`grad`), each
primitive propagates the tangent by its derivative, and `.detach()`
zeroes the tangent.  An output scalar whose tangent is `0` for all input
tangents receives no gradient from any input.
-/

/-- Forward-mode dual number: a value together with its tangent. -/
structure Dual where
  val : ℝ
  grad : ℝ

/-- Model of `tensor.detach()` on one scalar: same value, no tangent. -/
def detach (a : Dual) : Dual := ⟨a.val, 0⟩

/-- Subtraction of dual numbers. -/
def dsub (a b : Dual) : Dual := ⟨a.val - b.val, a.grad - b.grad⟩

/-- Addition of dual numbers. -/
def dadd (a b : Dual) : Dual := ⟨a.val + b.val, a.grad + b.grad⟩

/-- Negation of a dual number. -/
def dneg (a : Dual) : Dual := ⟨-a.val, -a.grad⟩

/-- Multiplication of a dual number by a python scalar. -/
def dsmul (c : ℝ) (a : Dual) : Dual := ⟨c * a.val, c * a.grad⟩

/-- Maximum of dual numbers: the gradient follows the larger operand
(the first on ties), as in `torch.maximum`. -/
def dmax (a b : Dual) : Dual := if a.val < b.val then b else a

/-- Dual-number `F.logsigmoid`: the tangent is scaled by the derivative
`sigmoid (-x) = exp (-x) / (1 + exp (-x))`. -/
def dlogsigmoid (a : Dual) : Dual :=
  ⟨logsigmoid a.val, a.grad * (Real.exp (-a.val) / (1 + Real.exp (-a.val)))⟩

/-- Smoothed logistic loss scalar term on dual numbers, as written in
`DPOLoss.forward`:
`-logsigmoid(beta*z)*(1-s) - logsigmoid(-(beta*z))*s`. -/
def dsmoothedLossTerm (beta s : ℝ) (z : Dual) : Dual :=
  dsub (dsmul (-(1 - s)) (dlogsigmoid (dsmul beta z)))
    (dsmul s (dlogsigmoid (dneg (dsmul beta z))))

/-- Elementwise subtraction of same-length dual tensors. -/
def dtsub (a b : List Dual) : List Dual := List.zipWith dsub a b

/-- Elementwise addition of same-length dual tensors. -/
def dtadd (a b : List Dual) : List Dual := List.zipWith dadd a b

/-- Scalar multiple of a dual tensor. -/
def dtsmul (c : ℝ) (a : List Dual) : List Dual := a.map (dsmul c)

/-- Model of `torch.zeros(shape)` as a dual tensor (constants carry no
tangent). -/
def dtzeros (n : ℕ) : List Dual := List.replicate n ⟨0, 0⟩

/-- Model of `tensor.detach()` on a dual tensor. -/
def dtdetach (a : List Dual) : List Dual := a.map detach

/-- Body of `DPOLoss.forward` over dual numbers; `.detach()` appears
exactly where the source calls it. -/
def DPOLoss.forwardGrad (self : DPOLoss) (pc pr rc rr : List Dual) :
    List Dual × List Dual × List Dual :=
  let pi_logratios := dtsub pc pr
  let ref_logratios := dtsub rc rr
  let logits := dtsub pi_logratios ref_logratios
  let penalty := List.zipWith dmax (dtzeros pc.length) (dtsub rc pc)
  let logits := dtadd logits (dtsmul (-self.lambda_dpop) penalty)
  let losses := logits.map (dsmoothedLossTerm self.beta self.label_smoothing)
  let chosen_rewards := dtsmul self.beta (dtdetach (dtsub pc rc))
  let rejected_rewards := dtsmul self.beta (dtdetach (dtsub pr rr))
  (losses, chosen_rewards, rejected_rewards)

/-- Body of `DPOPLoss.forward` over dual numbers. -/
def DPOPLoss.forwardGrad (self : DPOPLoss) (pc pr rc rr : List Dual) :
    List Dual × List Dual × List Dual :=
  let pi_logratios := dtsub pc pr
  let ref_logratios := dtsub rc rr
  let logits := dtsub pi_logratios ref_logratios
  let positive_reg := dtsub rc pc
  let losses := List.zipWith (fun z r =>
      dneg (dsub (dlogsigmoid (dsmul self.beta z))
        (dsmul self.lambda_dpop (dmax r ⟨0, 0⟩)))) logits positive_reg
  let chosen_rewards := dtsmul self.beta (dtdetach (dtsub pc rc))
  let rejected_rewards := dtsmul self.beta (dtdetach (dtsub pr rr))
  (losses, chosen_rewards, rejected_rewards)

/-- Body of `RPOLoss.forward` over dual numbers. -/
def RPOLoss.forwardGrad (self : RPOLoss) (pc pr rc rr nll : List Dual) :
    List Dual × List Dual × List Dual :=
  let pi_logratios := dtsub pc pr
  let ref_logratios := dtsub rc rr
  let logits := dtsub pi_logratios ref_logratios
  let losses := logits.map (dsmoothedLossTerm self.beta self.label_smoothing)
  let losses := dtadd losses (dtsmul self.rpo_alpha nll)
  let chosen_rewards := dtsmul self.beta (dtdetach (dtsub pc rc))
  let rejected_rewards := dtsmul self.beta (dtdetach (dtsub pr rr))
  (losses, chosen_rewards, rejected_rewards)

/-- Body of `RSOLoss.forward` over dual numbers. -/
def RSOLoss.forwardGrad (self : RSOLoss) (pc pr rc rr : List Dual) :
    List Dual × List Dual × List Dual :=
  let pi_logratios := dtsub pc pr
  let ref_logratios := dtsub rc rr
  let logits := dtsub pi_logratios ref_logratios
  let losses := logits.map (fun z =>
      dmax (dsub ⟨1, 0⟩ (dsmul self.gamma z)) ⟨0, 0⟩)
  let chosen_rewards := dtsmul self.gamma (dtdetach (dtsub pc rc))
  let rejected_rewards := dtsmul self.gamma (dtdetach (dtsub pr rr))
  (losses, chosen_rewards, rejected_rewards)

/-- Body of `SimPOLoss.forward` over dual numbers. -/
def SimPOLoss.forwardGrad (self : SimPOLoss) (pc pr : List Dual) :
    List Dual × List Dual × List Dual :=
  let pi_logratios := dtsub pc pr
  let gamma_logratios := self.gamma / self.beta
  let logits := pi_logratios.map (fun z => dsub z ⟨gamma_logratios, 0⟩)
  let losses := logits.map (dsmoothedLossTerm self.beta self.label_smoothing)
  let chosen_rewards := dtsmul self.beta (dtdetach pc)
  let rejected_rewards := dtsmul self.beta (dtdetach pr)
  (losses, chosen_rewards, rejected_rewards)

end

/-! Theorems. -/

/-- C1: for equal-length inputs, `DPOLoss.forward` returns per example
`loss[i] = -logsigmoid (beta * logits[i]) * (1 - label_smoothing)
          - logsigmoid (-(beta * logits[i])) * label_smoothing` with
`logits[i] = (pc[i] - pr[i]) - (rc[i] - rr[i])
            - lambda_dpop * max 0 (rc[i] - pc[i])`, together with
`chosen_reward[i] = beta * (pc[i] - rc[i])` and
`rejected_reward[i] = beta * (pr[i] - rr[i])`; with `lambda_dpop = 0`
the penalty term vanishes and vanilla DPO is recovered. -/
theorem dpo_forward_spec (self : DPOLoss) (pc pr rc rr : List ℝ) (n : ℕ)
    (hpc : pc.length = n) (hpr : pr.length = n) (hrc : rc.length = n) (hrr : rr.length = n)
    (i : ℕ) (hi : i < n) :
    (self.forward pc pr rc rr).1.get
        ⟨i, by simp [DPOLoss.forward, tsub, tadd, tmaximum, tsmul, tzeros]; omega⟩ =
      -logsigmoid (self.beta *
          ((pc.get ⟨i, by omega⟩ - pr.get ⟨i, by omega⟩)
            - (rc.get ⟨i, by omega⟩ - rr.get ⟨i, by omega⟩)
            - self.lambda_dpop * max 0 (rc.get ⟨i, by omega⟩ - pc.get ⟨i, by omega⟩)))
        * (1 - self.label_smoothing)
      - logsigmoid (-(self.beta *
          ((pc.get ⟨i, by omega⟩ - pr.get ⟨i, by omega⟩)
            - (rc.get ⟨i, by omega⟩ - rr.get ⟨i, by omega⟩)
            - self.lambda_dpop * max 0 (rc.get ⟨i, by omega⟩ - pc.get ⟨i, by omega⟩))))
        * self.label_smoothing
    ∧ (self.forward pc pr rc rr).2.1.get
        ⟨i, by simp [DPOLoss.forward, tsub, tsmul]; omega⟩ =
      self.beta * (pc.get ⟨i, by omega⟩ - rc.get ⟨i, by omega⟩)
    ∧ (self.forward pc pr rc rr).2.2.get
        ⟨i, by simp [DPOLoss.forward, tsub, tsmul]; omega⟩ =
      self.beta * (pr.get ⟨i, by omega⟩ - rr.get ⟨i, by omega⟩) := by
  refine ⟨?_, ?_, ?_⟩ <;>
    simp only [DPOLoss.forward, tsub, tadd, tmaximum, tsmul, tzeros, List.get_eq_getElem,
      List.getElem_zipWith, List.getElem_map, List.getElem_replicate]
  ring_nf

/-- Witness for C1 at `beta = 1`, `label_smoothing = 0`, `lambda_dpop = 0`,
inputs `[1] [0] [0] [0]`: the logits are `1` and the outputs are
`[-logsigmoid 1]`, `[1]`, `[0]`. -/
theorem dpo_forward_spec_witness :
    ((⟨1, 0, 0⟩ : DPOLoss).forward [1] [0] [0] [0]).1.get
        ⟨0, by simp [DPOLoss.forward, tsub, tadd, tmaximum, tsmul, tzeros]⟩ =
      -logsigmoid 1
    ∧ ((⟨1, 0, 0⟩ : DPOLoss).forward [1] [0] [0] [0]).2.1.get
        ⟨0, by simp [DPOLoss.forward, tsub, tsmul]⟩ = 1
    ∧ ((⟨1, 0, 0⟩ : DPOLoss).forward [1] [0] [0] [0]).2.2.get
        ⟨0, by simp [DPOLoss.forward, tsub, tsmul]⟩ = 0 := by
  obtain ⟨h1, h2, h3⟩ :=
    dpo_forward_spec ⟨1, 0, 0⟩ [1] [0] [0] [0] 1 rfl rfl rfl rfl 0 (by norm_num)
  refine ⟨h1.trans ?_, h2.trans ?_, h3.trans ?_⟩ <;> norm_num

/-- C2: the source contains no shape check.  On input vectors of
differing lengths (2 versus 1), `DPOLoss.forward` under full torch
tensor semantics silently broadcasts and returns a loss, rather than
reporting a shape-validation error before computation. -/
theorem dpo_forward_mismatch_broadcasts :
    ([(0 : ℝ), 0].length ≠ [(0 : ℝ)].length)
    ∧ ((⟨1, 0, 0⟩ : DPOLoss).forwardTensor [0, 0] [0] [0] [0]).isSome = true := by
  constructor
  · simp
  · simp [DPOLoss.forwardTensor, broadcastBin, tzeros, tsmul, Option.bind]

/-- C3: for equal-length inputs, `DPOPLoss.forward` returns per example
`loss[i] = -(logsigmoid (beta * logits[i])
            - lambda_dpop * max 0 (rc[i] - pc[i]))` with
`logits[i] = (pc[i] - pr[i]) - (rc[i] - rr[i])` (the clamp to `min = 0`
sits inside the loss term, with no label-smoothing blending), and the
reward diagnostics use the same formulas as DPO. -/
theorem dpop_forward_spec (self : DPOPLoss) (pc pr rc rr : List ℝ) (n : ℕ)
    (hpc : pc.length = n) (hpr : pr.length = n) (hrc : rc.length = n) (hrr : rr.length = n)
    (i : ℕ) (hi : i < n) :
    (self.forward pc pr rc rr).1.get
        ⟨i, by simp [DPOPLoss.forward, tsub]; omega⟩ =
      -(logsigmoid (self.beta *
          ((pc.get ⟨i, by omega⟩ - pr.get ⟨i, by omega⟩)
            - (rc.get ⟨i, by omega⟩ - rr.get ⟨i, by omega⟩)))
        - self.lambda_dpop * max 0 (rc.get ⟨i, by omega⟩ - pc.get ⟨i, by omega⟩))
    ∧ (self.forward pc pr rc rr).2.1.get
        ⟨i, by simp [DPOPLoss.forward, tsub, tsmul]; omega⟩ =
      self.beta * (pc.get ⟨i, by omega⟩ - rc.get ⟨i, by omega⟩)
    ∧ (self.forward pc pr rc rr).2.2.get
        ⟨i, by simp [DPOPLoss.forward, tsub, tsmul]; omega⟩ =
      self.beta * (pr.get ⟨i, by omega⟩ - rr.get ⟨i, by omega⟩) := by
  refine ⟨?_, ?_, ?_⟩ <;>
    simp only [DPOPLoss.forward, tsub, tsmul, List.get_eq_getElem,
      List.getElem_zipWith, List.getElem_map, max_comm]

/-- Witness for C3 at `beta = 1`, `label_smoothing = 0`, `lambda_dpop = 1`,
inputs `[1] [0] [2] [0]`: logits are `-1`, the clamped penalty is `1`,
and the outputs are `[-(logsigmoid (-1) - 1)]`, `[-1]`, `[0]`. -/
theorem dpop_forward_spec_witness :
    ((⟨1, 0, 1⟩ : DPOPLoss).forward [1] [0] [2] [0]).1.get
        ⟨0, by simp [DPOPLoss.forward, tsub]⟩ = -(logsigmoid (-1) - 1)
    ∧ ((⟨1, 0, 1⟩ : DPOPLoss).forward [1] [0] [2] [0]).2.1.get
        ⟨0, by simp [DPOPLoss.forward, tsub, tsmul]⟩ = -1
    ∧ ((⟨1, 0, 1⟩ : DPOPLoss).forward [1] [0] [2] [0]).2.2.get
        ⟨0, by simp [DPOPLoss.forward, tsub, tsmul]⟩ = 0 := by
  obtain ⟨h1, h2, h3⟩ :=
    dpop_forward_spec ⟨1, 0, 1⟩ [1] [0] [2] [0] 1 rfl rfl rfl rfl 0 (by norm_num)
  refine ⟨h1.trans ?_, h2.trans ?_, h3.trans ?_⟩ <;> norm_num

/-- C4: for equal-length inputs, `RSOLoss.forward` returns per example
`loss[i] = relu (1 - gamma * logits[i])` with
`logits[i] = (pc[i] - pr[i]) - (rc[i] - rr[i])`; the loss is exactly `0`
whenever `gamma * logits[i] ≥ 1`, equals `1 - gamma * logits[i]` (hence
is strictly positive and linear in the logit) otherwise, and equals `1`
when `logits[i] = 0`. -/
theorem rso_forward_spec (self : RSOLoss) (pc pr rc rr : List ℝ) (n : ℕ)
    (hpc : pc.length = n) (hpr : pr.length = n) (hrc : rc.length = n) (hrr : rr.length = n)
    (i : ℕ) (hi : i < n) :
    (self.forward pc pr rc rr).1.get
        ⟨i, by simp [RSOLoss.forward, tsub, trelu]; omega⟩ =
      max (1 - self.gamma *
          ((pc.get ⟨i, by omega⟩ - pr.get ⟨i, by omega⟩)
            - (rc.get ⟨i, by omega⟩ - rr.get ⟨i, by omega⟩))) 0
    ∧ (1 ≤ self.gamma *
          ((pc.get ⟨i, by omega⟩ - pr.get ⟨i, by omega⟩)
            - (rc.get ⟨i, by omega⟩ - rr.get ⟨i, by omega⟩)) →
        (self.forward pc pr rc rr).1.get
          ⟨i, by simp [RSOLoss.forward, tsub, trelu]; omega⟩ = 0)
    ∧ (self.gamma *
          ((pc.get ⟨i, by omega⟩ - pr.get ⟨i, by omega⟩)
            - (rc.get ⟨i, by omega⟩ - rr.get ⟨i, by omega⟩)) < 1 →
        (self.forward pc pr rc rr).1.get
          ⟨i, by simp [RSOLoss.forward, tsub, trelu]; omega⟩ =
          1 - self.gamma *
            ((pc.get ⟨i, by omega⟩ - pr.get ⟨i, by omega⟩)
              - (rc.get ⟨i, by omega⟩ - rr.get ⟨i, by omega⟩))
        ∧ 0 < (self.forward pc pr rc rr).1.get
          ⟨i, by simp [RSOLoss.forward, tsub, trelu]; omega⟩)
    ∧ ((pc.get ⟨i, by omega⟩ - pr.get ⟨i, by omega⟩)
          - (rc.get ⟨i, by omega⟩ - rr.get ⟨i, by omega⟩) = 0 →
        (self.forward pc pr rc rr).1.get
          ⟨i, by simp [RSOLoss.forward, tsub, trelu]; omega⟩ = 1) := by
  refine ⟨?_, ?_, ?_, ?_⟩ <;>
    simp only [RSOLoss.forward, tsub, trelu, List.get_eq_getElem,
      List.getElem_zipWith, List.getElem_map]
  · intro h
    exact max_eq_right (by linarith)
  · intro h
    refine ⟨max_eq_left (by linarith), ?_⟩
    exact lt_of_lt_of_le (by linarith) (le_max_left _ _)
  · intro h
    rw [h]
    norm_num

/-- Witness for C4: the spec scenario with `gamma = 0.1` and all-zero
inputs, so the logits are `0` and the loss is exactly `1`. -/
theorem rso_forward_spec_witness :
    ((⟨0.1⟩ : RSOLoss).forward [0] [0] [0] [0]).1.get
        ⟨0, by simp [RSOLoss.forward, tsub, trelu]⟩ = 1 := by
  have h :=
    (rso_forward_spec ⟨0.1⟩ [0] [0] [0] [0] 1 rfl rfl rfl rfl 0 (by norm_num)).2.2.2
  exact h (by norm_num)

/-- C5: for equal-length inputs, `RPOLoss.forward` returns per example
the DPO smoothed logistic loss on
`logits[i] = (pc[i] - pr[i]) - (rc[i] - rr[i])` (no DPOP penalty term)
plus the auxiliary term `rpo_alpha * nll_loss[i]`, with reward
diagnostics identical to DPO. -/
theorem rpo_forward_spec (self : RPOLoss) (pc pr rc rr nll : List ℝ) (n : ℕ)
    (hpc : pc.length = n) (hpr : pr.length = n) (hrc : rc.length = n) (hrr : rr.length = n)
    (hnll : nll.length = n) (i : ℕ) (hi : i < n) :
    (self.forward pc pr rc rr nll).1.get
        ⟨i, by simp [RPOLoss.forward, tsub, tadd, tsmul]; omega⟩ =
      (-logsigmoid (self.beta *
          ((pc.get ⟨i, by omega⟩ - pr.get ⟨i, by omega⟩)
            - (rc.get ⟨i, by omega⟩ - rr.get ⟨i, by omega⟩)))
        * (1 - self.label_smoothing)
      - logsigmoid (-(self.beta *
          ((pc.get ⟨i, by omega⟩ - pr.get ⟨i, by omega⟩)
            - (rc.get ⟨i, by omega⟩ - rr.get ⟨i, by omega⟩))))
        * self.label_smoothing)
      + self.rpo_alpha * nll.get ⟨i, by omega⟩
    ∧ (self.forward pc pr rc rr nll).2.1.get
        ⟨i, by simp [RPOLoss.forward, tsub, tsmul]; omega⟩ =
      self.beta * (pc.get ⟨i, by omega⟩ - rc.get ⟨i, by omega⟩)
    ∧ (self.forward pc pr rc rr nll).2.2.get
        ⟨i, by simp [RPOLoss.forward, tsub, tsmul]; omega⟩ =
      self.beta * (pr.get ⟨i, by omega⟩ - rr.get ⟨i, by omega⟩) := by
  refine ⟨?_, ?_, ?_⟩ <;>
    simp only [RPOLoss.forward, tsub, tadd, tsmul, List.get_eq_getElem,
      List.getElem_zipWith, List.getElem_map]

/-- Witness for C5 at `beta = 1`, `label_smoothing = 0`, `rpo_alpha = 1`,
inputs `[1] [0] [0] [0]` and `nll = [2]`: the loss is
`[-logsigmoid 1 + 2]` and the rewards are `[1]`, `[0]`. -/
theorem rpo_forward_spec_witness :
    ((⟨1, 0, 1⟩ : RPOLoss).forward [1] [0] [0] [0] [2]).1.get
        ⟨0, by simp [RPOLoss.forward, tsub, tadd, tsmul]⟩ = -logsigmoid 1 + 2
    ∧ ((⟨1, 0, 1⟩ : RPOLoss).forward [1] [0] [0] [0] [2]).2.1.get
        ⟨0, by simp [RPOLoss.forward, tsub, tsmul]⟩ = 1
    ∧ ((⟨1, 0, 1⟩ : RPOLoss).forward [1] [0] [0] [0] [2]).2.2.get
        ⟨0, by simp [RPOLoss.forward, tsub, tsmul]⟩ = 0 := by
  obtain ⟨h1, h2, h3⟩ :=
    rpo_forward_spec ⟨1, 0, 1⟩ [1] [0] [0] [0] [2] 1 rfl rfl rfl rfl rfl 0 (by norm_num)
  refine ⟨h1.trans ?_, h2.trans ?_, h3.trans ?_⟩ <;> norm_num

/-- C6: for equal-length inputs, `SimPOLoss.forward` computes
`logits[i] = (pc[i] - pr[i]) - gamma / beta` (a fixed margin offset),
applies the same smoothed logistic loss as DPO, and returns
`chosen_reward[i] = beta * pc[i]` and `rejected_reward[i] = beta * pr[i]`
with no reference subtraction; when `pc[i] = pr[i]` the logit is exactly
`-(gamma / beta)`. -/
theorem simpo_forward_spec (self : SimPOLoss) (pc pr : List ℝ) (n : ℕ)
    (hpc : pc.length = n) (hpr : pr.length = n) (i : ℕ) (hi : i < n) :
    (self.forward pc pr).1.get
        ⟨i, by simp [SimPOLoss.forward, tsub, tsubScalar]; omega⟩ =
      -logsigmoid (self.beta *
          ((pc.get ⟨i, by omega⟩ - pr.get ⟨i, by omega⟩) - self.gamma / self.beta))
        * (1 - self.label_smoothing)
      - logsigmoid (-(self.beta *
          ((pc.get ⟨i, by omega⟩ - pr.get ⟨i, by omega⟩) - self.gamma / self.beta)))
        * self.label_smoothing
    ∧ (self.forward pc pr).2.1.get
        ⟨i, by simp [SimPOLoss.forward, tsmul]; omega⟩ =
      self.beta * pc.get ⟨i, by omega⟩
    ∧ (self.forward pc pr).2.2.get
        ⟨i, by simp [SimPOLoss.forward, tsmul]; omega⟩ =
      self.beta * pr.get ⟨i, by omega⟩
    ∧ (pc.get ⟨i, by omega⟩ = pr.get ⟨i, by omega⟩ →
        (self.forward pc pr).1.get
          ⟨i, by simp [SimPOLoss.forward, tsub, tsubScalar]; omega⟩ =
        -logsigmoid (self.beta * (-(self.gamma / self.beta)))
          * (1 - self.label_smoothing)
        - logsigmoid (-(self.beta * (-(self.gamma / self.beta))))
          * self.label_smoothing) := by
  refine ⟨?_, ?_, ?_, ?_⟩ <;>
    simp only [SimPOLoss.forward, tsub, tsubScalar, tsmul, List.get_eq_getElem,
      List.getElem_zipWith, List.getElem_map]
  intro h
  rw [h]
  ring_nf

/-- Witness for C6 at `beta = 2`, `gamma = 1`, `label_smoothing = 0`,
inputs `[3] [3]`: the chosen and rejected log-probabilities coincide, so
the logit is the margin offset `-(1/2)` and the loss is
`[-logsigmoid (2 * -(1/2))]`; the rewards are `[6]`, `[6]`. -/
theorem simpo_forward_spec_witness :
    ((⟨2, 1, 0⟩ : SimPOLoss).forward [3] [3]).1.get
        ⟨0, by simp [SimPOLoss.forward, tsub, tsubScalar]⟩ =
      -logsigmoid (2 * -(1 / 2))
    ∧ ((⟨2, 1, 0⟩ : SimPOLoss).forward [3] [3]).2.1.get
        ⟨0, by simp [SimPOLoss.forward, tsmul]⟩ = 6
    ∧ ((⟨2, 1, 0⟩ : SimPOLoss).forward [3] [3]).2.2.get
        ⟨0, by simp [SimPOLoss.forward, tsmul]⟩ = 6 := by
  obtain ⟨h1, h2, h3, h4⟩ :=
    simpo_forward_spec ⟨2, 1, 0⟩ [3] [3] 1 rfl rfl 0 (by norm_num)
  refine ⟨(h4 rfl).trans ?_, h2.trans ?_, h3.trans ?_⟩ <;> norm_num

/-- C7: with `label_smoothing = 0` the reversed-label term of
`DPOLoss.forward` vanishes, and the per-example loss is exactly
`-logsigmoid (beta * logits[i])`. -/
theorem dpo_forward_zero_label_smoothing (self : DPOLoss)
    (hls : self.label_smoothing = 0) (pc pr rc rr : List ℝ) (n : ℕ)
    (hpc : pc.length = n) (hpr : pr.length = n) (hrc : rc.length = n) (hrr : rr.length = n)
    (i : ℕ) (hi : i < n) :
    (self.forward pc pr rc rr).1.get
        ⟨i, by simp [DPOLoss.forward, tsub, tadd, tmaximum, tsmul, tzeros]; omega⟩ =
      -logsigmoid (self.beta *
          ((pc.get ⟨i, by omega⟩ - pr.get ⟨i, by omega⟩)
            - (rc.get ⟨i, by omega⟩ - rr.get ⟨i, by omega⟩)
            - self.lambda_dpop * max 0 (rc.get ⟨i, by omega⟩ - pc.get ⟨i, by omega⟩))) := by
  simp only [DPOLoss.forward, tsub, tadd, tmaximum, tsmul, tzeros, List.get_eq_getElem,
    List.getElem_zipWith, List.getElem_map, List.getElem_replicate, hls]
  ring_nf

/-- Witness for C7: the spec scenario, inputs `[-1] [-2] [-1.5] [-2.5]`
with `beta = 0.1`, `label_smoothing = 0`, `lambda_dpop = 0`, gives logits
`0` and loss exactly `log 2`. -/
theorem dpo_forward_zero_label_smoothing_witness :
    ((⟨0.1, 0, 0⟩ : DPOLoss).forward [-1] [-2] [-1.5] [-2.5]).1.get
        ⟨0, by simp [DPOLoss.forward, tsub, tadd, tmaximum, tsmul, tzeros]⟩ =
      Real.log 2 := by
  have h := dpo_forward_zero_label_smoothing ⟨0.1, 0, 0⟩ rfl
    [-1] [-2] [-1.5] [-2.5] 1 rfl rfl rfl rfl 0 (by norm_num)
  refine h.trans ?_
  norm_num [logsigmoid]

/-- Nonpositivity of the stable log-sigmoid: `1 + exp (-x) ≥ 1`. -/
lemma logsigmoid_nonpos (x : ℝ) : logsigmoid x ≤ 0 := by
  have h : (0 : ℝ) ≤ Real.log (1 + Real.exp (-x)) :=
    Real.log_nonneg (by linarith [Real.exp_pos (-x)])
  simp only [logsigmoid]
  linarith

/-- Linear lower bound on the stable log-sigmoid:
`1 + exp (-x) ≤ 2 * exp |x|`, so `log (1 + exp (-x)) ≤ log 2 + |x|`. -/
lemma logsigmoid_lower_bound (x : ℝ) : -(Real.log 2 + |x|) ≤ logsigmoid x := by
  have hpos : (0 : ℝ) < 1 + Real.exp (-x) := by positivity
  have e1 : (1 : ℝ) ≤ Real.exp |x| := Real.one_le_exp (abs_nonneg x)
  have e2 : Real.exp (-x) ≤ Real.exp |x| := Real.exp_le_exp.mpr (neg_le_abs x)
  have h2 : 1 + Real.exp (-x) ≤ 2 * Real.exp |x| := by linarith
  have hlog : Real.log (1 + Real.exp (-x)) ≤ Real.log (2 * Real.exp |x|) :=
    Real.log_le_log hpos h2
  rw [Real.log_mul two_ne_zero (Real.exp_ne_zero _), Real.log_exp] at hlog
  simp only [logsigmoid]
  linarith

/-- C9: both log-sigmoid branches of the smoothed logistic loss are
computed through the stable form `logsigmoid x = -log (1 + exp (-x))`
and stay finite for inputs of arbitrarily large magnitude: each branch
lies between `-(log 2 + |x|)` and `0`. -/
theorem logsigmoid_branches_finite (beta z : ℝ) :
    (-(Real.log 2 + |beta * z|) ≤ logsigmoid (beta * z) ∧ logsigmoid (beta * z) ≤ 0)
    ∧ (-(Real.log 2 + |beta * z|) ≤ logsigmoid (-(beta * z))
        ∧ logsigmoid (-(beta * z)) ≤ 0) := by
  refine ⟨⟨logsigmoid_lower_bound _, logsigmoid_nonpos _⟩, ⟨?_, logsigmoid_nonpos _⟩⟩
  have h := logsigmoid_lower_bound (-(beta * z))
  rwa [abs_neg] at h

/-- C10: `DPOPLoss.forward` never reads `label_smoothing`: two
configurations that agree on `beta` and `lambda_dpop` produce identical
outputs on identical inputs, whatever their `label_smoothing`. -/
theorem dpop_label_smoothing_unused (a b : DPOPLoss) (hb : a.beta = b.beta)
    (hl : a.lambda_dpop = b.lambda_dpop) (pc pr rc rr : List ℝ) :
    a.forward pc pr rc rr = b.forward pc pr rc rr := by
  simp only [DPOPLoss.forward, hb, hl]

/-- Witness for C10: configurations `(1, 0, 1)` and `(1, 1/2, 1)` differ
only in `label_smoothing` and give equal outputs. -/
theorem dpop_label_smoothing_unused_witness :
    (⟨1, 0, 1⟩ : DPOPLoss).beta = (⟨1, 1 / 2, 1⟩ : DPOPLoss).beta
    ∧ (⟨1, 0, 1⟩ : DPOPLoss).lambda_dpop = (⟨1, 1 / 2, 1⟩ : DPOPLoss).lambda_dpop
    ∧ (⟨1, 0, 1⟩ : DPOPLoss).label_smoothing ≠ (⟨1, 1 / 2, 1⟩ : DPOPLoss).label_smoothing
    ∧ (⟨1, 0, 1⟩ : DPOPLoss).forward [1] [2] [3] [4] =
      (⟨1, 1 / 2, 1⟩ : DPOPLoss).forward [1] [2] [3] [4] :=
  ⟨rfl, rfl, by norm_num,
    dpop_label_smoothing_unused _ _ rfl rfl [1] [2] [3] [4]⟩

/-- C8: in every loss variant the reward outputs are detached: under the
dual-number gradient semantics, every element of the returned
`chosen_rewards` and `rejected_rewards` carries zero tangent, whatever
tangents the inputs carry, so no gradient flows through the rewards. -/
theorem rewards_detached :
    (∀ (self : DPOLoss) (pc pr rc rr : List Dual),
      (∀ d ∈ (self.forwardGrad pc pr rc rr).2.1, d.grad = 0)
      ∧ (∀ d ∈ (self.forwardGrad pc pr rc rr).2.2, d.grad = 0))
    ∧ (∀ (self : DPOPLoss) (pc pr rc rr : List Dual),
      (∀ d ∈ (self.forwardGrad pc pr rc rr).2.1, d.grad = 0)
      ∧ (∀ d ∈ (self.forwardGrad pc pr rc rr).2.2, d.grad = 0))
    ∧ (∀ (self : RPOLoss) (pc pr rc rr nll : List Dual),
      (∀ d ∈ (self.forwardGrad pc pr rc rr nll).2.1, d.grad = 0)
      ∧ (∀ d ∈ (self.forwardGrad pc pr rc rr nll).2.2, d.grad = 0))
    ∧ (∀ (self : RSOLoss) (pc pr rc rr : List Dual),
      (∀ d ∈ (self.forwardGrad pc pr rc rr).2.1, d.grad = 0)
      ∧ (∀ d ∈ (self.forwardGrad pc pr rc rr).2.2, d.grad = 0))
    ∧ (∀ (self : SimPOLoss) (pc pr : List Dual),
      (∀ d ∈ (self.forwardGrad pc pr).2.1, d.grad = 0)
      ∧ (∀ d ∈ (self.forwardGrad pc pr).2.2, d.grad = 0)) := by
  refine ⟨?_, ?_, ?_, ?_, ?_⟩ <;> intros <;>
    refine ⟨fun d hd => ?_, fun d hd => ?_⟩ <;>
    simp only [DPOLoss.forwardGrad, DPOPLoss.forwardGrad, RPOLoss.forwardGrad,
      RSOLoss.forwardGrad, SimPOLoss.forwardGrad, dtsmul, dtdetach,
      List.map_map, List.mem_map, Function.comp] at hd <;>
    obtain ⟨x, -, rfl⟩ := hd <;>
    simp [dsmul, detach]

/-- Witness for C8: for the DPO variant at `beta = 1` with chosen input
tangent `1`, the chosen reward `⟨1, 0⟩` is in the output and its tangent
is `0`. -/
theorem rewards_detached_witness :
    ((⟨1, 0⟩ : Dual) ∈
      ((⟨1, 0, 0⟩ : DPOLoss).forwardGrad [⟨1, 1⟩] [⟨0, 1⟩] [⟨0, 0⟩] [⟨0, 0⟩]).2.1)
    ∧ (⟨1, 0⟩ : Dual).grad = 0 := by
  constructor
  · norm_num [DPOLoss.forwardGrad, dtsmul, dtdetach, dtsub, dsub, detach, dsmul]
  · exact (rewards_detached.1 ⟨1, 0, 0⟩ [⟨1, 1⟩] [⟨0, 1⟩] [⟨0, 0⟩] [⟨0, 0⟩]).1 ⟨1, 0⟩
      (by norm_num [DPOLoss.forwardGrad, dtsmul, dtdetach, dtsub, dsub, detach, dsmul])
